import Mathlib

/-!
Verification of the CITA JSON-RPC HTTP front door
(src/cita-jsonrpc/src/http_server.rs) against its specification.

The HTTP server code (routing, CORS preflight, access logging, response
headers, listener setup) is embedded shallowly below.  Parts of the
repository that the file uses but that are outside http_server.rs
(the extractor, the publisher and timeout wrapper, the error-response
conversion, the header helpers) are modelled from the specification;
each such definition carries a doc comment saying so.
-/

namespace CitaHttp

/-! ## Header maps

hyper header maps normalise header names to lowercase; we embed them as
association lists keyed by lowercase strings, with insert-replaces
semantics matching HeaderMap::insert. -/

/-- Header map: association list from lowercase header name to value. -/
def HeaderMap := List (String × String)

instance : DecidableEq HeaderMap := by
  unfold HeaderMap
  infer_instance

/-- Embeds HeaderMap::new. -/
def HeaderMap.new : HeaderMap := []

/-- Embeds HeaderMap::insert: replaces any previous value for the name. -/
def HeaderMap.insert (h : HeaderMap) (k v : String) : HeaderMap :=
  (k, v) :: h.filter (fun p => p.1 != k)

/-- Embeds HeaderMap::get: the value stored under a name, if any
(the first matching entry). -/
def HeaderMap.get : HeaderMap → String → Option String
  | [], _ => none
  | p :: t, k => if p.1 == k then some p.2 else HeaderMap.get t k

theorem HeaderMap.get_insert_self (h : HeaderMap) (k v : String) :
    (h.insert k v).get k = some v := by
  simp [HeaderMap.insert, HeaderMap.get]

theorem HeaderMap.get_filter_ne (h : HeaderMap) (k k' : String)
    (hne : k' ≠ k) :
    HeaderMap.get (List.filter (fun p => p.1 != k) h) k' = HeaderMap.get h k' := by
  induction h with
  | nil => rfl
  | cons a t ih =>
    by_cases ha : a.1 = k
    · have hak : (a.1 != k) = false := by simp [ha]
      have hak2 : (a.1 == k') = false := by
        simp [ha]
        exact fun hc => hne hc.symm
      simp [List.filter_cons, hak, HeaderMap.get, hak2, ih]
    · have hak : (a.1 != k) = true := by simp [ha]
      by_cases ha2 : a.1 = k'
      · have hak2 : (a.1 == k') = true := by simp [ha2]
        simp [List.filter_cons, hak, HeaderMap.get, hak2]
      · have hak2 : (a.1 == k') = false := by simp [ha2]
        simp [List.filter_cons, hak, HeaderMap.get, hak2, ih]

theorem HeaderMap.get_insert_ne (h : HeaderMap) (k v k' : String)
    (hne : k' ≠ k) :
    (h.insert k v).get k' = h.get k' := by
  have hk : (k == k') = false := by
    simp
    exact fun hc => hne hc.symm
  simp [HeaderMap.insert, HeaderMap.get, hk,
        HeaderMap.get_filter_ne h k k' hne]

/-- Modelled from the spec: HeaderMapExt::insert_vec (crate http_header,
not under src/) stores a list of values under one name as the values
joined by a comma and a space, as in the preflight header lists of the
spec. -/
def HeaderMap.insert_vec (h : HeaderMap) (k : String) (vs : List String) : HeaderMap :=
  h.insert k (String.intercalate ", " vs)

/-! ## HTTP methods, rpc ids, access logs -/

/-- Embeds hyper Method, restricted to the constructors the routing
distinguishes. -/
inductive Method
  | post
  | options
  | other (s : String)
  deriving DecidableEq

/-- Rendering of a method in the access log. -/
def Method.render : Method → String
  | .post => "POST"
  | .options => "OPTIONS"
  | .other s => s

/-- Embeds jsonrpc_types Id: the client-supplied JSON-RPC id. -/
inductive RpcId
  | num (n : Int)
  | str (s : String)
  | null
  deriving DecidableEq

/-- Modelled from the spec: the Debug rendering of an Id
(jsonrpc_types, not under src/); the exact shape is not load-bearing
for any claim. -/
def RpcId.debugRender : RpcId → String
  | .num n => "Num(" ++ toString n ++ ")"
  | .str s => "Str(" ++ s ++ ")"
  | .null => "Null"

/-- Embeds struct SingleRpcAccessLog. -/
structure SingleRpcAccessLog where
  id : RpcId
  method : Option String
  deriving DecidableEq

/-- Embeds struct BatchRpcAccessLog. -/
structure BatchRpcAccessLog where
  count : Option Nat
  deriving DecidableEq

/-- Embeds enum RpcAccessLog. -/
inductive RpcAccessLog
  | single (sl : SingleRpcAccessLog)
  | batch (bl : BatchRpcAccessLog)
  deriving DecidableEq

/-- Embeds enum AccessLog from crate mq_publisher (declared there, used
in http_server.rs). -/
inductive MQAccessLog
  | single (id : RpcId) (method : Option String)
  | batch (count : Option Nat)
  deriving DecidableEq

/-- Embeds impl From of MQAccessLog for RpcAccessLog. -/
def RpcAccessLog.ofMQ : MQAccessLog → RpcAccessLog
  | .single id method => .single ⟨id, method⟩
  | .batch count => .batch ⟨count⟩

/-- Embeds struct AccessLog. -/
structure AccessLog where
  user_agent : String
  http_method : Method
  http_path : String
  rpc_info : Option RpcAccessLog
  deriving DecidableEq

/-- Embeds AccessLog::new: the user agent is looked up in the header
map given as argument, falling back to the string unknown. -/
def AccessLog.new (http_method : Method) (http_path : String)
    (http_headers : HeaderMap) : AccessLog :=
  { user_agent := (http_headers.get "user-agent").getD "unknown"
    http_method := http_method
    http_path := http_path
    rpc_info := none }

/-- Embeds AccessLog::set_rpc_info. -/
def AccessLog.set_rpc_info (l : AccessLog) (r : RpcAccessLog) : AccessLog :=
  { l with rpc_info := some r }

/-- Embeds impl Display for AccessLog. -/
def AccessLog.render (l : AccessLog) : String :=
  "user-agent=" ++ l.user_agent
    ++ ", http-method=" ++ l.http_method.render
    ++ ", http-path=" ++ l.http_path
    ++ match l.rpc_info with
       | some (.single sl) =>
         ", rpc-type=single" ++ ", rpc-id=" ++ sl.id.debugRender
           ++ (match sl.method with
               | some m => ", rpc-method=" ++ m
               | none => ", rpc-method=unknown")
       | some (.batch bl) =>
         ", rpc-type=batch"
           ++ (match bl.count with
               | some c => ", rpc-count=" ++ toString c
               | none => ", rpc-count=-1")
       | none => ", rpc-type=unknown"

/-! ## Responses -/

/-- Body of an HTTP response, at the level of detail the claims need:
empty, plain text, a serialised JSON-RPC error envelope with its code,
or a serialised JSON-RPC reply. -/
inductive Body
  | emptyBody
  | plainText (s : String)
  | jsonRpcErrorEnvelope (code : Int)
  | jsonRpcReply
  deriving DecidableEq

/-- Embeds hyper Response. -/
structure Response where
  status : Nat
  headers : HeaderMap
  body : Body
  deriving DecidableEq

/-- Embeds Response::default: HTTP 200, no headers, empty body. -/
def Response.default : Response :=
  { status := 200, headers := HeaderMap.new, body := .emptyBody }

/-- Modelled from the spec: HyperResponseExt::with_headers (crate
response, not under src/) sets the response headers. -/
def Response.with_headers (r : Response) (h : HeaderMap) : Response :=
  { r with headers := h }

/-- Modelled from the spec: HyperResponseExt::with_status (crate
response, not under src/) sets the response status. -/
def Response.with_status (r : Response) (s : Nat) : Response :=
  { r with status := s }

/-- Embeds const TCP_BACKLOG. -/
def TCP_BACKLOG : Int := 1024

/-- Embeds const CORS_CACHE. -/
def CORS_CACHE : Nat := 86400

/-- Embeds fn handle_preflighted: overwrites the content type with
text/plain, stores the allowed methods, the allowed headers and the
preflight cache age, and returns the map otherwise unchanged. -/
def handle_preflighted (headers : HeaderMap) : HeaderMap :=
  let allow_methods := ["POST", "OPTIONS"]
  let allow_headers := ["Origin", "Content-Type", "X-Requested-With", "User-Agent", "Accept"]
  let h1 := headers.insert "content-type" "text/plain"
  let h2 := h1.insert_vec "access-control-allow-methods" allow_methods
  let h3 := h2.insert_vec "access-control-allow-headers" allow_headers
  h3.insert "access-control-max-age" (toString CORS_CACHE)

/-- Embeds the header-map construction at the top of Server::start:
the content type application/json, and the configured allow-origin
value stored under the hyper ORIGIN header name, which is the header
named origin. -/
def startHeaders (allow_origin : String) : HeaderMap :=
  (HeaderMap.new.insert "content-type" "application/json").insert "origin" allow_origin

/-- Configuration of the hyper server built in Server::start. -/
structure StartConfig where
  http_headers : HeaderMap
  http1_keepalive : Bool
  deriving DecidableEq

/-- Embeds Server::start at the configuration level: the header map it
installs and the http1_keepalive(true) builder call. -/
def Server.start (allow_origin : String) : StartConfig :=
  { http_headers := startHeaders allow_origin, http1_keepalive := true }

/-- Configuration of the accepting socket built in fn listener. -/
structure ListenerSocket where
  reuse_port : Bool
  reuse_address : Bool
  backlog : Int
  deriving DecidableEq

/-- Embeds fn listener: reuse_port(true), reuse_address(true), bind,
listen(TCP_BACKLOG). -/
def listener : ListenerSocket :=
  { reuse_port := true, reuse_address := true, backlog := TCP_BACKLOG }

/-! ## The extraction pipeline, modelled from the spec

The extractor (crate extractor), the publisher and timeout wrapper
(crate mq_publisher) and the error conversion (crate response) are not
under src/; the definitions below model them from the specification. -/

/-- Modelled from the spec: the shapes of a POST body that the
extractor distinguishes (extractor.rs is not under src/): unreadable
or empty body, malformed JSON, JSON that is neither object nor array,
a single request object, or a batch array. -/
inductive BodyShape
  | empty
  | malformed
  | unrecognisable
  | single (id : RpcId) (methodName : Option String)
      (wellformed : Bool) (methodKnown : Bool)
  | batch (n : Nat) (wellformed : Bool)
  deriving DecidableEq

/-- Modelled from the spec: the error values of the POST pipeline
(extractor.rs and mq_publisher.rs, not under src/): a transport-level
bad request, or a JSON-RPC level error with its code and the
originating id. -/
inductive ExtractError
  | badRequest
  | rpc (code : Int) (id : RpcId)
  deriving DecidableEq

/-- Embeds struct MQRequest at the level the claims need: its access
log and the correlation ids of its elements. -/
structure MQRequest where
  acc_log : MQAccessLog
  correlation_ids : List Nat
  deriving DecidableEq

/-- Modelled from the spec: the extractor pipeline
FutExtractor::extract_from twice (extractor.rs, not under src/).
Unreadable or empty bodies and structurally unrecognisable request
types fail as bad requests; malformed JSON fails with code -32700;
validation failures and empty batches fail with code -32600; an
unknown method fails with code -32601 without publishing; the rest
translate to a bus request. -/
def extract : BodyShape → Except ExtractError MQRequest
  | .empty => .error .badRequest
  | .malformed => .error (.rpc (-32700) .null)
  | .unrecognisable => .error .badRequest
  | .single id _ false _ => .error (.rpc (-32600) id)
  | .single id _ true false => .error (.rpc (-32601) id)
  | .single id m true true => .ok { acc_log := .single id m, correlation_ids := [0] }
  | .batch 0 _ => .error (.rpc (-32600) .null)
  | .batch (_ + 1) false => .error (.rpc (-32600) .null)
  | .batch (n + 1) true =>
      .ok { acc_log := .batch (some (n + 1)), correlation_ids := List.range (n + 1) }

/-- Modelled from the spec: the IntoResponse conversion applied in the
then-combinator of Server::call (response.rs, not under src/): errors
carrying a JSON-RPC code become an HTTP 200 JSON-RPC error envelope
under the configured headers; transport-level failures become an HTTP
400 plain-text response with no JSON-RPC envelope. -/
def ExtractError.into_response (e : ExtractError) (headers : HeaderMap) : Response :=
  match e with
  | .badRequest =>
      { status := 400
        headers := HeaderMap.new.insert "content-type" "text/plain"
        body := .plainText "bad request" }
  | .rpc code _ =>
      { status := 200, headers := headers, body := .jsonRpcErrorEnvelope code }

/-- Modelled from the spec: the reply resolved by Publisher and
TimeoutPublisher (mq_publisher.rs, not under src/): any produced
reply, including per-element errors and timeouts, resolves as HTTP 200
JSON under the configured headers. -/
def publishReply (headers : HeaderMap) (_mq : MQRequest) : Response :=
  { status := 200, headers := headers, body := .jsonRpcReply }

/-! ## The service -/

/-- Embeds hyper Request at the level Server::call inspects it. -/
structure Request where
  method : Method
  path : String
  headers : HeaderMap
  body : BodyShape
  deriving DecidableEq

/-- Observable actions of the handler, in program order: access-log
emission and publish of the translated bus requests. -/
inductive Event
  | logged (line : String)
  | published (correlation_ids : List Nat)
  deriving DecidableEq

/-- Service-level error type of the returned future (hyper::Error). -/
inductive HyperError
  | transport
  deriving DecidableEq

/-- Embeds struct Inner, restricted to the fields whose values reach
the response or the trace: the timeout and the configured header map.
The sender and the response table act through the events and the
correlation model. -/
structure Inner where
  timeout : Nat
  http_headers : HeaderMap
  deriving DecidableEq

/-- Embeds Service::call for Server: routing on method and path, the
access log built from the configured header map exactly as in the
source, the POST pipeline with its then-combinator error conversion,
the OPTIONS preflight branch and the 404 catch-all.  Returns the
resolved value of the future together with the trace of observable
events in program order. -/
def Server.call (inner : Inner) (req : Request) :
    Except HyperError Response × List Event :=
  if req.method = .post ∧ req.path = "/" then
    match extract req.body with
    | .ok mq =>
        (.ok (publishReply inner.http_headers mq),
         [.logged ((AccessLog.new req.method req.path inner.http_headers).set_rpc_info
            (RpcAccessLog.ofMQ mq.acc_log)).render,
          .published mq.correlation_ids])
    | .error err => (.ok (err.into_response inner.http_headers), [])
  else if req.method = .options ∧ req.path = "/" then
    (.ok (Response.default.with_headers (handle_preflighted inner.http_headers)),
     [.logged (AccessLog.new req.method req.path inner.http_headers).render])
  else
    (.ok ((Response.default.with_headers inner.http_headers).with_status 404),
     [.logged (AccessLog.new req.method req.path inner.http_headers).render])

/-- The response the future of Server::call resolves with. -/
def callResponse (inner : Inner) (req : Request) : Response :=
  match (Server.call inner req).1 with
  | .ok r => r
  | .error _ => Response.default

/-- The event trace of Server::call. -/
def callEvents (inner : Inner) (req : Request) : List Event :=
  (Server.call inner req).2

/-- Whether an event is an access-log emission. -/
def Event.isLog : Event → Bool
  | .logged _ => true
  | .published _ => false

/-- Number of access-log emissions in a trace. -/
def logCount (evs : List Event) : Nat :=
  (evs.filter Event.isLog).length

/-- Holds when no publish occurs before the first access-log emission
of the trace, so every publish is preceded by the log. -/
def noPublishBeforeLog : List Event → Bool
  | [] => true
  | .logged _ :: _ => true
  | .published _ :: _ => false

/-! ## The correlation table and the timeout wrapper, modelled from
the spec -/

/-- Modelled from the spec: the Correlation Table (helper.rs RpcMap,
not under src/) reduced to the multiset of installed correlation ids;
only slot presence matters to the cleanup claims. -/
abbrev CorrelationTable := List Nat

/-- Modelled from the spec: install inserts a slot under a fresh id. -/
def CorrelationTable.install (t : CorrelationTable) (i : Nat) : CorrelationTable :=
  i :: t

/-- Modelled from the spec: take atomically removes the slot of an id,
a no-op when the id is absent. -/
def CorrelationTable.take (t : CorrelationTable) (i : Nat) : CorrelationTable :=
  t.filter (fun j => j != i)

/-- Modelled from the spec: drop is take with the result discarded. -/
def CorrelationTable.dropSlot (t : CorrelationTable) (i : Nat) : CorrelationTable :=
  CorrelationTable.take t i

/-- Modelled from the spec: how an accepted POST request completes. -/
inductive CompletionOutcome
  | fulfilled
  | timedOut (delivered : List Nat)
  | cancelled (delivered : List Nat)

/-- Modelled from the spec: the TimeoutPublisher protocol
(mq_publisher.rs, not under src/).  A slot for every element is
installed before publishing.  On fulfilment the inbound demultiplexer
takes every slot as its response is delivered.  If the timer fires
first, the slots of the already-delivered elements have been taken and
the wrapper drops every still-installed slot of the request.  On
cancellation the drop guard likewise drops every installed slot after
whatever deliveries happened. -/
def timeoutPublish (table : CorrelationTable) (elems : List Nat)
    (outcome : CompletionOutcome) : CorrelationTable :=
  let installed := elems.foldl CorrelationTable.install table
  match outcome with
  | .fulfilled => elems.foldl CorrelationTable.take installed
  | .timedOut delivered =>
      elems.foldl CorrelationTable.dropSlot
        (delivered.foldl CorrelationTable.take installed)
  | .cancelled delivered =>
      elems.foldl CorrelationTable.dropSlot
        (delivered.foldl CorrelationTable.take installed)

/-! ## Helper lemmas -/

theorem CorrelationTable.mem_take (t : CorrelationTable) (i e : Nat) :
    e ∈ CorrelationTable.take t i ↔ e ∈ t ∧ e ≠ i := by
  simp [CorrelationTable.take]

theorem CorrelationTable.dropSlot_eq_take :
    CorrelationTable.dropSlot = CorrelationTable.take := rfl

theorem mem_foldl_take {L : List Nat} {t : CorrelationTable} {e : Nat}
    (h : e ∈ L.foldl CorrelationTable.take t) : e ∈ t := by
  induction L generalizing t with
  | nil => exact h
  | cons i L ih =>
    exact ((CorrelationTable.mem_take t i e).mp (ih h)).1

theorem not_mem_foldl_take {L : List Nat} (t : CorrelationTable) {e : Nat}
    (he : e ∈ L) : e ∉ L.foldl CorrelationTable.take t := by
  induction L generalizing t with
  | nil => cases he
  | cons i L ih =>
    intro hmem
    rcases List.mem_cons.mp he with h1 | h2
    · subst h1
      have h3 : e ∈ CorrelationTable.take t e := mem_foldl_take hmem
      exact ((CorrelationTable.mem_take t e e).mp h3).2 rfl
    · exact ih (CorrelationTable.take t i) h2 hmem

theorem call_post_ok (inner : Inner) (req : Request) (mq : MQRequest)
    (hm : req.method = .post) (hp : req.path = "/")
    (hex : extract req.body = .ok mq) :
    Server.call inner req =
      (.ok (publishReply inner.http_headers mq),
       [.logged ((AccessLog.new req.method req.path inner.http_headers).set_rpc_info
          (RpcAccessLog.ofMQ mq.acc_log)).render,
        .published mq.correlation_ids]) := by
  unfold Server.call
  rw [if_pos ⟨hm, hp⟩, hex]

theorem call_post_err (inner : Inner) (req : Request) (err : ExtractError)
    (hm : req.method = .post) (hp : req.path = "/")
    (hex : extract req.body = .error err) :
    Server.call inner req = (.ok (err.into_response inner.http_headers), []) := by
  unfold Server.call
  rw [if_pos ⟨hm, hp⟩, hex]

theorem call_options (inner : Inner) (req : Request)
    (hm : req.method = .options) (hp : req.path = "/") :
    Server.call inner req =
      (.ok (Response.default.with_headers (handle_preflighted inner.http_headers)),
       [.logged (AccessLog.new req.method req.path inner.http_headers).render]) := by
  have hne : ¬ (req.method = .post ∧ req.path = "/") := by
    rw [hm]
    rintro ⟨hc, -⟩
    cases hc
  unfold Server.call
  rw [if_neg hne, if_pos ⟨hm, hp⟩]

theorem call_catchall (inner : Inner) (req : Request)
    (h1 : ¬ (req.method = .post ∧ req.path = "/"))
    (h2 : ¬ (req.method = .options ∧ req.path = "/")) :
    Server.call inner req =
      (.ok ((Response.default.with_headers inner.http_headers).with_status 404),
       [.logged (AccessLog.new req.method req.path inner.http_headers).render]) := by
  unfold Server.call
  rw [if_neg h1, if_neg h2]

theorem handle_preflighted_get_other (h : HeaderMap) (k : String)
    (hk1 : k ≠ "content-type")
    (hk2 : k ≠ "access-control-allow-methods")
    (hk3 : k ≠ "access-control-allow-headers")
    (hk4 : k ≠ "access-control-max-age") :
    (handle_preflighted h).get k = h.get k := by
  unfold handle_preflighted HeaderMap.insert_vec
  rw [HeaderMap.get_insert_ne _ _ _ _ hk4, HeaderMap.get_insert_ne _ _ _ _ hk3,
      HeaderMap.get_insert_ne _ _ _ _ hk2, HeaderMap.get_insert_ne _ _ _ _ hk1]

theorem handle_preflighted_get_fixed (h : HeaderMap) :
    (handle_preflighted h).get "content-type" = some "text/plain"
    ∧ (handle_preflighted h).get "access-control-allow-methods" = some "POST, OPTIONS"
    ∧ (handle_preflighted h).get "access-control-allow-headers"
        = some "Origin, Content-Type, X-Requested-With, User-Agent, Accept"
    ∧ (handle_preflighted h).get "access-control-max-age" = some "86400" := by
  unfold handle_preflighted HeaderMap.insert_vec
  refine ⟨?_, ?_, ?_, ?_⟩
  · rw [HeaderMap.get_insert_ne _ _ _ _ (by decide),
        HeaderMap.get_insert_ne _ _ _ _ (by decide),
        HeaderMap.get_insert_ne _ _ _ _ (by decide),
        HeaderMap.get_insert_self]
  · rw [HeaderMap.get_insert_ne _ _ _ _ (by decide),
        HeaderMap.get_insert_ne _ _ _ _ (by decide),
        HeaderMap.get_insert_self]
    rfl
  · rw [HeaderMap.get_insert_ne _ _ _ _ (by decide),
        HeaderMap.get_insert_self]
    rfl
  · rw [HeaderMap.get_insert_self]
    rfl

/-! ## Concrete fixtures -/

/-- Server state after a startup with allow-origin star and a three
second timeout, as in the integration test. -/
def innerStar : Inner := { timeout := 3, http_headers := startHeaders "*" }

/-- A GET request outside the routing table. -/
def req404 : Request :=
  { method := .other "GET", path := "/status", headers := HeaderMap.new, body := .empty }

/-- A POST to the root with an empty body. -/
def reqEmptyBody : Request :=
  { method := .post, path := "/", headers := HeaderMap.new, body := .empty }

/-- A well-formed single request for a known method, carrying a
User-Agent header. -/
def reqSingle74 : Request :=
  { method := .post, path := "/"
    headers := HeaderMap.new.insert "user-agent" "curl/7.54.0"
    body := .single (.num 74) (some "peerCount") true true }

/-- A CORS preflight request. -/
def reqPreflight : Request :=
  { method := .options, path := "/", headers := HeaderMap.new, body := .empty }

/-! ## Claims -/

/-- C1: for every accepted POST request, after the request completes by
fulfilment, timeout or cancellation, the correlation table contains no
slot created for any element of that request; the timeout wrapper
removes every still-installed slot on every exit path. -/
theorem slot_cleanup_on_completion (table : CorrelationTable) (elems : List Nat)
    (outcome : CompletionOutcome) (e : Nat) (he : e ∈ elems) :
    e ∉ timeoutPublish table elems outcome := by
  unfold timeoutPublish
  cases outcome with
  | fulfilled => exact not_mem_foldl_take _ he
  | timedOut delivered =>
      rw [CorrelationTable.dropSlot_eq_take]
      exact not_mem_foldl_take _ he
  | cancelled delivered =>
      rw [CorrelationTable.dropSlot_eq_take]
      exact not_mem_foldl_take _ he

/-- Witness for C1 at a concrete table, request and outcome. -/
theorem slot_cleanup_on_completion_witness :
    1 ∈ [1, 2, 3]
    ∧ 1 ∉ timeoutPublish [7] [1, 2, 3] (CompletionOutcome.timedOut [2]) :=
  ⟨by decide,
   slot_cleanup_on_completion [7] [1, 2, 3] (CompletionOutcome.timedOut [2]) 1 (by decide)⟩

/-- C2: the claim says every response carries an
Access-Control-Allow-Origin header holding the allow-origin value from
startup; the code instead stores that value under the header named
origin (hyper ORIGIN), so the 404 response of a server started with
allow-origin star has no access-control-allow-origin entry at all. -/
theorem allow_origin_misplaced_under_origin :
    (callResponse innerStar req404).status = 404
    ∧ HeaderMap.get (callResponse innerStar req404).headers "access-control-allow-origin" = none
    ∧ HeaderMap.get (callResponse innerStar req404).headers "origin" = some "*" := by
  refine ⟨rfl, rfl, rfl⟩

/-- C3: the claim says the access log takes the user agent from the
User-Agent header of the incoming request; the code passes the
configured response headers to AccessLog::new instead, so a request
carrying a User-Agent header is still logged as unknown. -/
theorem access_log_user_agent_ignores_request :
    HeaderMap.get reqSingle74.headers "user-agent" = some "curl/7.54.0"
    ∧ (AccessLog.new reqSingle74.method reqSingle74.path innerStar.http_headers).user_agent
        = "unknown"
    ∧ callEvents innerStar reqSingle74
      = [Event.logged "user-agent=unknown, http-method=POST, http-path=/, rpc-type=single, rpc-id=Num(74), rpc-method=peerCount",
         Event.published [0]] := by
  refine ⟨rfl, rfl, rfl⟩

/-- C4 counterexample: a POST to the root whose extraction fails (here
the empty body) emits the access log zero times, not exactly once. -/
theorem access_log_skipped_on_extract_failure :
    logCount (callEvents innerStar reqEmptyBody) = 0 := rfl

/-- Number of access-log emissions predicted by the amended claim C4:
one per request, except zero for a POST to the root whose extraction
fails. -/
def specLogEmissions (req : Request) : Nat :=
  if req.method = .post ∧ req.path = "/" then
    match extract req.body with
    | .ok _ => 1
    | .error _ => 0
  else 1

/-- C4 amended: every OPTIONS and catch-all request emits the access
log exactly once; a POST to the root emits it exactly once when
extraction succeeds and not at all when extraction fails; and no
publish ever precedes the log emission of its request. -/
theorem access_log_emissions_and_order (inner : Inner) (req : Request) :
    logCount (callEvents inner req) = specLogEmissions req
    ∧ noPublishBeforeLog (callEvents inner req) = true := by
  by_cases h1 : req.method = .post ∧ req.path = "/"
  · cases hex : extract req.body with
    | ok mq =>
        simp only [callEvents, call_post_ok inner req mq h1.1 h1.2 hex,
                   specLogEmissions, if_pos h1, hex]
        exact ⟨rfl, rfl⟩
    | error e =>
        simp only [callEvents, call_post_err inner req e h1.1 h1.2 hex,
                   specLogEmissions, if_pos h1, hex]
        exact ⟨rfl, rfl⟩
  · by_cases h2 : req.method = .options ∧ req.path = "/"
    · simp only [callEvents, call_options inner req h2.1 h2.2,
                 specLogEmissions, if_neg h1]
      exact ⟨rfl, rfl⟩
    · simp only [callEvents, call_catchall inner req h1 h2,
                 specLogEmissions, if_neg h1]
      exact ⟨rfl, rfl⟩

/-- C5: on the POST route, JSON-RPC level failures surface as HTTP 200
with a JSON-RPC error envelope; an unreadable body or an unrecognisable
request type surfaces as HTTP 400 with a plain-text body; the empty
body in particular yields HTTP 400. -/
theorem post_error_surfacing (inner : Inner) (req : Request)
    (hm : req.method = .post) (hp : req.path = "/") :
    (∀ c id, extract req.body = .error (.rpc c id) →
        (callResponse inner req).status = 200
        ∧ (callResponse inner req).body = Body.jsonRpcErrorEnvelope c)
    ∧ (extract req.body = .error .badRequest →
        (callResponse inner req).status = 400
        ∧ (∃ s, (callResponse inner req).body = Body.plainText s)
        ∧ (callResponse inner req).headers.get "content-type" = some "text/plain")
    ∧ (req.body = .empty → (callResponse inner req).status = 400) := by
  refine ⟨?_, ?_, ?_⟩
  · intro c id hex
    simp only [callResponse, call_post_err inner req _ hm hp hex]
    exact ⟨rfl, rfl⟩
  · intro hex
    simp only [callResponse, call_post_err inner req _ hm hp hex]
    exact ⟨rfl, ⟨_, rfl⟩, rfl⟩
  · intro hb
    have hex : extract req.body = .error .badRequest := by
      rw [hb]
      rfl
    simp only [callResponse, call_post_err inner req _ hm hp hex]
    rfl

/-- Witness for C5 at the empty POST body. -/
theorem post_error_surfacing_witness :
    (callResponse innerStar reqEmptyBody).status = 400 :=
  (post_error_surfacing innerStar reqEmptyBody rfl rfl).2.2 rfl

/-- C6: every OPTIONS request to the root yields HTTP 200 with an empty
body and headers carrying text/plain as content type, the allowed
methods, the allowed headers, and the preflight cache age 86400. -/
theorem preflight_response_shape (inner : Inner) (req : Request)
    (hm : req.method = .options) (hp : req.path = "/") :
    (callResponse inner req).status = 200
    ∧ (callResponse inner req).body = Body.emptyBody
    ∧ (callResponse inner req).headers.get "content-type" = some "text/plain"
    ∧ (callResponse inner req).headers.get "access-control-allow-methods"
        = some "POST, OPTIONS"
    ∧ (callResponse inner req).headers.get "access-control-allow-headers"
        = some "Origin, Content-Type, X-Requested-With, User-Agent, Accept"
    ∧ (callResponse inner req).headers.get "access-control-max-age" = some "86400" := by
  have hc : callResponse inner req
      = Response.default.with_headers (handle_preflighted inner.http_headers) := by
    simp only [callResponse, call_options inner req hm hp]
  rw [hc]
  have hfix := handle_preflighted_get_fixed inner.http_headers
  exact ⟨rfl, rfl, hfix.1, hfix.2.1, hfix.2.2.1, hfix.2.2.2⟩

/-- Witness for C6 at a concrete preflight request. -/
theorem preflight_response_shape_witness :
    (callResponse innerStar reqPreflight).status = 200
    ∧ (callResponse innerStar reqPreflight).headers.get "access-control-max-age"
        = some "86400" :=
  ⟨(preflight_response_shape innerStar reqPreflight rfl rfl).1,
   (preflight_response_shape innerStar reqPreflight rfl rfl).2.2.2.2.2⟩

/-- C7: every request whose method and path pair is neither POST to the
root nor OPTIONS to the root yields HTTP 404 with an empty body under
the configured headers. -/
theorem catchall_not_found (inner : Inner) (req : Request)
    (h1 : ¬ (req.method = .post ∧ req.path = "/"))
    (h2 : ¬ (req.method = .options ∧ req.path = "/")) :
    callResponse inner req
      = { status := 404, headers := inner.http_headers, body := Body.emptyBody } := by
  simp only [callResponse, call_catchall inner req h1 h2]
  rfl

/-- Witness for C7 at a concrete GET request. -/
theorem catchall_not_found_witness :
    callResponse innerStar req404
      = { status := 404, headers := startHeaders "*", body := Body.emptyBody } :=
  catchall_not_found innerStar req404 (by decide) (by decide)

/-- C8: the listener sets reuse-address, reuse-port and a backlog of
1024 on the accepting socket, and the server enables keep-alive on
http1 connections. -/
theorem listener_and_keepalive_config :
    listener.reuse_address = true ∧ listener.reuse_port = true
    ∧ listener.backlog = 1024
    ∧ ∀ allow_origin : String, (Server.start allow_origin).http1_keepalive = true :=
  ⟨rfl, rfl, rfl, fun _ => rfl⟩

/-- C9: the future returned by Server::call always resolves with an
HTTP response; no branch propagates a service-level error. -/
theorem call_future_always_resolves (inner : Inner) (req : Request) :
    ∃ resp : Response, (Server.call inner req).1 = Except.ok resp := by
  by_cases h1 : req.method = .post ∧ req.path = "/"
  · cases hex : extract req.body with
    | ok mq => exact ⟨_, by rw [call_post_ok inner req mq h1.1 h1.2 hex]⟩
    | error e => exact ⟨_, by rw [call_post_err inner req e h1.1 h1.2 hex]⟩
  · by_cases h2 : req.method = .options ∧ req.path = "/"
    · exact ⟨_, by rw [call_options inner req h2.1 h2.2]⟩
    · exact ⟨_, by rw [call_catchall inner req h1 h2]⟩

/-- C10: handle_preflighted changes only the content type and the three
access-control entries it inserts, every other entry of the configured
map is unchanged; in particular the allow-origin value installed at
startup under the origin name is still present, unmodified. -/
theorem preflight_preserves_other_headers (h : HeaderMap) (ao k : String)
    (hk1 : k ≠ "content-type")
    (hk2 : k ≠ "access-control-allow-methods")
    (hk3 : k ≠ "access-control-allow-headers")
    (hk4 : k ≠ "access-control-max-age") :
    (handle_preflighted h).get k = h.get k
    ∧ (handle_preflighted h).get "content-type" = some "text/plain"
    ∧ (handle_preflighted (startHeaders ao)).get "origin" = some ao := by
  refine ⟨handle_preflighted_get_other h k hk1 hk2 hk3 hk4,
          (handle_preflighted_get_fixed h).1, ?_⟩
  rw [handle_preflighted_get_other _ _ (by decide) (by decide) (by decide) (by decide)]
  exact HeaderMap.get_insert_self _ _ _

/-- Witness for C10 at the origin entry of a concrete startup map. -/
theorem preflight_preserves_other_headers_witness :
    (handle_preflighted (startHeaders "*")).get "origin"
      = (startHeaders "*").get "origin" :=
  (preflight_preserves_other_headers (startHeaders "*") "*" "origin"
      (by decide) (by decide) (by decide) (by decide)).1

end CitaHttp
